import Mathlib

/-
Verification of the call/assignment/literal parsing core
(django_unicorn/call_method_parser.py) against its specification.

The development shallowly embeds the module: Python AST nodes become the
inductive `PExpr`/`PStmt`, `ast.parse` becomes an executable lexer plus a
recursive-descent parser over the Python fragment this module actually
receives (identifiers, attribute chains, calls, assignments, int/string
literals, `True`/`False`/`None`, list and tuple displays), `ast.literal_eval`
becomes `literal_eval`, and the three public functions keep their source
names.  Python exceptions become `Except` error values.
-/

namespace Unicorn

/-- Nonempty strings: Python `ast.Name.id` is always a nonempty identifier,
so the embedding records that invariant in the type of `name` nodes. -/
def NEString := {s : String // s ≠ ""}

instance : DecidableEq NEString := fun a b =>
  if h : a.val = b.val then Decidable.isTrue (Subtype.ext h)
  else Decidable.isFalse (fun hc => h (congrArg Subtype.val hc))

/-- Constant literals carried by `ast.Constant` in the modelled fragment. -/
inductive Const
| noneC
| boolC (b : Bool)
| intC (n : Nat)
| strC (s : String)

/-- Expression nodes: the fragment of `ast.expr` the module's inputs use
(`Name`, `Attribute`, `Constant`, `List`, `Tuple`, `Call`). -/
inductive PExpr
| name (id : NEString)
| attribute (value : PExpr) (attr : String)
| constant (c : Const)
| list (elts : List PExpr)
| tuple (elts : List PExpr)
| call (func : PExpr) (args : List PExpr) (keywords : List (String × PExpr))

/-- Statement nodes: `ast.Assign` (single target, as produced for the
module's `a.b = expr` payloads) and `ast.Expr`. -/
inductive PStmt
| assign (target : PExpr) (value : PExpr)
| exprStmt (value : PExpr)

/-- Python duck typing: both `ast.Assign` and `ast.Expr` expose a `.value`
attribute, which `parse_call_method_name` reads as `tree.body[0].value`. -/
def PStmt.value : PStmt → PExpr
| .assign _ v => v
| .exprStmt v => v

/-- Tokens of the lexed Python fragment. -/
inductive Tok
| ident (s : NEString)
| intTok (n : Nat)
| strTok (s : String)
| lparen
| rparen
| lbrack
| rbrack
| comma
| dot
| eqTok
deriving DecidableEq

/-- Decimal digits to a natural number. -/
def digitsToNat (cs : List Char) : Nat :=
  cs.foldl (fun n c => 10 * n + (c.toNat - 48)) 0

/-- Identifier strings built by the lexer are nonempty by construction. -/
def mkNE (c : Char) (cs : List Char) : NEString :=
  ⟨String.mk (c :: cs), fun h => List.cons_ne_nil c cs (congrArg String.data h)⟩

/-- Scans a quoted string literal up to the closing quote character,
returning the content and the remaining characters. -/
def scanStr : Nat → Char → List Char → List Char → Except String (List Char × List Char)
| 0, _, _, _ => .error ("invalid syntax")
| _ + 1, _, _, [] => .error ("invalid syntax")
| fuel + 1, q, acc, c :: cs =>
  if c = q then .ok (acc.reverse, cs)
  else scanStr fuel q (c :: acc) cs

/-- Prepends a token to the result of lexing the rest of the input. -/
def consTok (t : Tok) (r : Except String (List Tok)) : Except String (List Tok) :=
  match r with
  | .error m => .error m
  | .ok toks => .ok (t :: toks)

/-- Lexer for the Python source fragment: spaces, identifiers, decimal
integers (Python 3 rejects leading zeros and a digit run followed by a name
character), single- or double-quoted strings, and the punctuation the
module's grammar uses.  Any other character is a syntax error, mirroring
`ast.parse` raising `SyntaxError` outside the fragment. -/
def lexAux : Nat → List Char → Except String (List Tok)
| 0, _ => .error ("invalid syntax")
| _ + 1, [] => .ok []
| fuel + 1, c :: cs =>
  if c = ' ' then lexAux fuel cs
  else if c.isAlpha || c = '_' then
    let rest := cs.takeWhile (fun d => d.isAlphanum || d = '_')
    let after := cs.dropWhile (fun d => d.isAlphanum || d = '_')
    consTok (Tok.ident (mkNE c rest)) (lexAux fuel after)
  else if c.isDigit then
    let rest := cs.takeWhile Char.isDigit
    let after := cs.dropWhile Char.isDigit
    if c = '0' && rest.length > 0 then .error ("invalid syntax")
    else if (after.headD ' ').isAlpha || after.headD ' ' = '_' then .error ("invalid syntax")
    else consTok (Tok.intTok (digitsToNat (c :: rest))) (lexAux fuel after)
  else if c.toNat = 39 || c = '"' then
    match scanStr fuel c [] cs with
    | .error m => .error m
    | .ok (content, after) => consTok (Tok.strTok (String.mk content)) (lexAux fuel after)
  else if c = '(' then consTok Tok.lparen (lexAux fuel cs)
  else if c = ')' then consTok Tok.rparen (lexAux fuel cs)
  else if c = '[' then consTok Tok.lbrack (lexAux fuel cs)
  else if c = ']' then consTok Tok.rbrack (lexAux fuel cs)
  else if c = ',' then consTok Tok.comma (lexAux fuel cs)
  else if c = '.' then consTok Tok.dot (lexAux fuel cs)
  else if c = '=' then consTok Tok.eqTok (lexAux fuel cs)
  else .error ("invalid syntax")

/-- Lexes a whole source string. -/
def lexStr (source : String) : Except String (List Tok) :=
  lexAux (source.length + 1) source.data

mutual

/-- Parses one expression: an atom followed by its trailers. -/
def parseExpr : Nat → List Tok → Except String (PExpr × List Tok)
| 0, _ => .error ("invalid syntax")
| fuel + 1, toks =>
  match parseAtom fuel toks with
  | .error m => .error m
  | .ok (e, rest) => parseTrailers fuel e rest

/-- Parses an atom: identifier (with the `True`/`False`/`None` keyword
constants), integer, string, list display, or parenthesised expression or
tuple display. -/
def parseAtom : Nat → List Tok → Except String (PExpr × List Tok)
| 0, _ => .error ("invalid syntax")
| fuel + 1, toks =>
  match toks with
  | Tok.ident s :: rest =>
    if s.val = "True" then .ok (.constant (.boolC true), rest)
    else if s.val = "False" then .ok (.constant (.boolC false), rest)
    else if s.val = "None" then .ok (.constant .noneC, rest)
    else .ok (.name s, rest)
  | Tok.intTok n :: rest => .ok (.constant (.intC n), rest)
  | Tok.strTok s :: rest => .ok (.constant (.strC s), rest)
  | Tok.lbrack :: rest =>
    match parseElts fuel rest Tok.rbrack with
    | .error m => .error m
    | .ok (es, _, rest2) => .ok (.list es, rest2)
  | Tok.lparen :: rest =>
    match parseElts fuel rest Tok.rparen with
    | .error m => .error m
    | .ok (es, sawComma, rest2) =>
      match es, sawComma with
      | [e], false => .ok (e, rest2)
      | _, _ => .ok (.tuple es, rest2)
  | _ => .error ("invalid syntax")

/-- Parses attribute-access and call trailers after an atom. -/
def parseTrailers : Nat → PExpr → List Tok → Except String (PExpr × List Tok)
| 0, _, _ => .error ("invalid syntax")
| fuel + 1, e, toks =>
  match toks with
  | Tok.dot :: Tok.ident a :: rest => parseTrailers fuel (.attribute e a.val) rest
  | Tok.dot :: _ => .error ("invalid syntax")
  | Tok.lparen :: rest =>
    match parseArgs fuel rest with
    | .error m => .error m
    | .ok (args, kws, rest2) => parseTrailers fuel (.call e args kws) rest2
  | _ => .ok (e, toks)

/-- Parses comma-separated expressions up to a closing token (consumed);
also reports whether any comma was seen, to distinguish `(e)` from `(e,)`. -/
def parseElts : Nat → List Tok → Tok → Except String (List PExpr × Bool × List Tok)
| 0, _, _ => .error ("invalid syntax")
| fuel + 1, toks, close =>
  match toks with
  | [] => .error ("invalid syntax")
  | t :: rest =>
    if t = close then .ok ([], false, rest)
    else
      match parseExpr fuel toks with
      | .error m => .error m
      | .ok (e, rest2) =>
        match rest2 with
        | [] => .error ("invalid syntax")
        | t2 :: rest3 =>
          if t2 = close then .ok ([e], false, rest3)
          else if t2 = Tok.comma then
            match parseElts fuel rest3 close with
            | .error m => .error m
            | .ok (es, _, rest4) => .ok (e :: es, true, rest4)
          else .error ("invalid syntax")

/-- Parses a call argument list up to the closing parenthesis (consumed):
positional expressions and `name = value` keyword arguments. -/
def parseArgs : Nat → List Tok → Except String (List PExpr × List (String × PExpr) × List Tok)
| 0, _ => .error ("invalid syntax")
| fuel + 1, toks =>
  match toks with
  | [] => .error ("invalid syntax")
  | Tok.rparen :: rest => .ok ([], [], rest)
  | Tok.ident k :: Tok.eqTok :: rest =>
    match parseExpr fuel rest with
    | .error m => .error m
    | .ok (v, rest2) =>
      match rest2 with
      | Tok.rparen :: rest3 => .ok ([], [(k.val, v)], rest3)
      | Tok.comma :: rest3 =>
        match parseArgs fuel rest3 with
        | .error m => .error m
        | .ok (args, kws, rest4) => .ok (args, (k.val, v) :: kws, rest4)
      | _ => .error ("invalid syntax")
  | _ =>
    match parseExpr fuel toks with
    | .error m => .error m
    | .ok (e, rest2) =>
      match rest2 with
      | Tok.rparen :: rest3 => .ok ([e], [], rest3)
      | Tok.comma :: rest3 =>
        match parseArgs fuel rest3 with
        | .error m => .error m
        | .ok (args, kws, rest4) => .ok (e :: args, kws, rest4)
      | _ => .error ("invalid syntax")

end

/-- Assignment targets the fragment accepts: a bare name or an attribute
chain.  Python's parser rejects other shapes here with `SyntaxError`
(for example `cannot assign to literal`). -/
def assignable : PExpr → Bool
| .name _ => true
| .attribute _ _ => true
| _ => false

/-- Model of `ast.parse(source)` in exec mode (both call sites pass the
string `eval` as the *filename* argument, so the mode is the default exec
mode): the empty or blank source yields an empty body, otherwise a single
statement — either a lone expression or `target = value`. -/
def pyparse (source : String) : Except String (List PStmt) :=
  match lexStr source with
  | .error m => .error m
  | .ok [] => .ok []
  | .ok toks =>
    match parseExpr (4 * toks.length + 8) toks with
    | .error m => .error m
    | .ok (e, []) => .ok [PStmt.exprStmt e]
    | .ok (e, Tok.eqTok :: rest) =>
      if assignable e then
        match parseExpr (4 * toks.length + 8) rest with
        | .error m => .error m
        | .ok (v, []) => .ok [PStmt.assign e v]
        | .ok (_, _ :: _) => .error ("invalid syntax")
      else .error ("cannot assign to expression")
    | .ok (_, _ :: _) => .error ("invalid syntax")

/-- Model of the parse step of `ast.literal_eval` on a string: eval mode
requires exactly one expression covering the whole input. -/
def pyparseExpr (source : String) : Except String PExpr :=
  match lexStr source with
  | .error m => .error m
  | .ok [] => .error ("invalid syntax")
  | .ok toks =>
    match parseExpr (4 * toks.length + 8) toks with
    | .error m => .error m
    | .ok (e, []) => .ok e
    | .ok (_, _ :: _) => .error ("invalid syntax")

/-- Typed values produced by the evaluator: the literal values of the
grammar plus the coerced datetime/date/time/duration/UUID variants added by
the fallback chain. -/
inductive Value
| noneV
| bool (b : Bool)
| int (n : Int)
| str (s : String)
| list (elts : List Value)
| tuple (elts : List Value)
| datetime (year month day hour minute second : Nat)
| date (year month day : Nat)
| time (hour minute second : Nat)
| duration (seconds : Int)
| uuid (hex : String)

/-- Python truthiness of the modelled values: `None`, `False`, zero, empty
strings and containers, and the zero `timedelta` are falsy; `datetime`,
`date`, `time` and `UUID` objects are always truthy. -/
def truthy : Value → Bool
| .noneV => false
| .bool b => b
| .int n => n != 0
| .str s => s != ""
| .list l => !l.isEmpty
| .tuple l => !l.isEmpty
| .datetime _ _ _ _ _ _ => true
| .date _ _ _ => true
| .time _ _ _ => true
| .duration s => s != 0
| .uuid _ => true

/-- Value of an `ast.Constant`. -/
def constToValue : Const → Value
| .noneC => .noneV
| .boolC b => .bool b
| .intC n => .int (Int.ofNat n)
| .strC s => .str s

mutual

/-- Model of the node-evaluation step of `ast.literal_eval` (CPython's
`_convert`): constants and lists/tuples of literals evaluate; any other
node — in particular `Name`, `Attribute` and `Call` — raises
`ValueError: malformed node or string`. -/
def evalNode : PExpr → Except String Value
| .constant c => .ok (constToValue c)
| .list es =>
  match evalNodeList es with
  | .error m => .error m
  | .ok vs => .ok (.list vs)
| .tuple es =>
  match evalNodeList es with
  | .error m => .error m
  | .ok vs => .ok (.tuple vs)
| .name _ => .error ("malformed node or string")
| .attribute _ _ => .error ("malformed node or string")
| .call _ _ _ => .error ("malformed node or string")

/-- Evaluates the elements of a literal container in order, propagating the
first failure. -/
def evalNodeList : List PExpr → Except String (List Value)
| [] => .ok []
| e :: es =>
  match evalNode e with
  | .error m => .error m
  | .ok v =>
    match evalNodeList es with
    | .error m => .error m
    | .ok vs => .ok (v :: vs)

end

/-- Input of `eval_value`: the call sites pass either a raw string or an
already-parsed AST node, and `ast.literal_eval` accepts both. -/
inductive EvalInput
| str (s : String)
| node (e : PExpr)

/-- Failures of `ast.literal_eval`: `SyntaxError` from parsing the string,
or `ValueError` from a malformed literal node. -/
inductive LEErr
| syntaxErr (m : String)
| valueErr (m : String)

/-- Model of `ast.literal_eval`: a string input is parsed in eval mode
(`SyntaxError` on failure) and then the node is evaluated (`ValueError` on
a malformed literal); a node input skips the parse step, so it can only
fail with `ValueError`. -/
def literal_eval : EvalInput → Except LEErr Value
| .str s =>
  match pyparseExpr s with
  | .error m => .error (.syntaxErr m)
  | .ok e =>
    match evalNode e with
    | .error m => .error (.valueErr m)
    | .ok v => .ok v
| .node e =>
  match evalNode e with
  | .error m => .error (.valueErr m)
  | .ok v => .ok v

/-- Splits a character list at every separator, like Python `re` groups
split on a delimiter: `splitChars p "ab-cd"` with `p = (= '-')` is
`[[a, b], [c, d]]`. -/
def splitChars (p : Char → Bool) : List Char → List (List Char)
| [] => [[]]
| c :: cs =>
  if p c then [] :: splitChars p cs
  else
    match splitChars p cs with
    | [] => [[c]]
    | g :: gs => (c :: g) :: gs

/-- Digits-only character run to a natural number (dates allow leading
zeros, unlike Python integer literals). -/
def natOfDigits (cs : List Char) : Option Nat :=
  if 0 < cs.length && cs.all Char.isDigit then some (digitsToNat cs) else none

/-- Modelled from the spec: external black-box coercion function
`parse_date` (django.utils.dateparse), contract `(String) -> Option`,
matching `YYYY-MM-DD` with a validity check (a well-formatted but invalid
date raises `ValueError`, which the caster loop swallows, so it is `none`
here). -/
def parse_date (s : String) : Option Value :=
  match splitChars (fun c => c = '-') s.data with
  | [y, mo, d] =>
    match natOfDigits y, natOfDigits mo, natOfDigits d with
    | some yn, some mon, some dn =>
      if y.length = 4 && 1 ≤ mo.length && mo.length ≤ 2 && 1 ≤ d.length && d.length ≤ 2
          && 1 ≤ mon && mon ≤ 12 && 1 ≤ dn && dn ≤ 31
      then some (.date yn mon dn) else none
    | _, _, _ => none
  | _ => none

/-- Modelled from the spec: external black-box coercion function
`parse_time` (django.utils.dateparse), matching `HH:MM[:SS]` with range
checks. -/
def parse_time (s : String) : Option Value :=
  match splitChars (fun c => c = ':') s.data with
  | [h, mi] =>
    match natOfDigits h, natOfDigits mi with
    | some hn, some mn =>
      if h.length ≤ 2 && mi.length ≤ 2 && hn ≤ 23 && mn ≤ 59
      then some (.time hn mn 0) else none
    | _, _ => none
  | [h, mi, se] =>
    match natOfDigits h, natOfDigits mi, natOfDigits se with
    | some hn, some mn, some sn =>
      if h.length ≤ 2 && mi.length ≤ 2 && se.length ≤ 2 && hn ≤ 23 && mn ≤ 59 && sn ≤ 59
      then some (.time hn mn sn) else none
    | _, _, _ => none
  | _ => none

/-- Modelled from the spec: external black-box coercion function
`parse_datetime` (django.utils.dateparse), matching a date part and a time
part separated by `T` or a space. -/
def parse_datetime (s : String) : Option Value :=
  match splitChars (fun c => c = 'T' || c = ' ') s.data with
  | [ds, ts] =>
    match parse_date (String.mk ds), parse_time (String.mk ts) with
    | some (.date y mo d), some (.time h mi se) => some (.datetime y mo d h mi se)
    | _, _ => none
  | _ => none

/-- Modelled from the spec: external black-box coercion function
`parse_duration` (django.utils.dateparse), standard-format fragment
`[[HH:]MM:]SS` as a number of seconds; note `parse_duration("00:00:00")`
is the zero duration, which is falsy. -/
def parse_duration (s : String) : Option Value :=
  match splitChars (fun c => c = ':') s.data with
  | [se] => (natOfDigits se).map (fun n => .duration (Int.ofNat n))
  | [mi, se] =>
    match natOfDigits mi, natOfDigits se with
    | some mn, some sn => some (.duration (Int.ofNat (60 * mn + sn)))
    | _, _ => none
  | [h, mi, se] =>
    match natOfDigits h, natOfDigits mi, natOfDigits se with
    | some hn, some mn, some sn => some (.duration (Int.ofNat (3600 * hn + 60 * mn + sn)))
    | _, _, _ => none
  | _ => none

/-- Hexadecimal digit test. -/
def isHexDigit (c : Char) : Bool :=
  c.isDigit || ('a' ≤ c && c ≤ 'f') || ('A' ≤ c && c ≤ 'F')

/-- Modelled from the spec: external black-box coercion `UUID` (uuid
library), accepting the dashed `8-4-4-4-12` hexadecimal form (a malformed
string raises `ValueError`, swallowed by the caster loop, so `none` here). -/
def parseUUID (s : String) : Option Value :=
  match splitChars (fun c => c = '-') s.data with
  | [a, b, c, d, e] =>
    if a.length = 8 && b.length = 4 && c.length = 4 && d.length = 4 && e.length = 12
        && a.all isHexDigit && b.all isHexDigit && c.all isHexDigit
        && d.all isHexDigit && e.all isHexDigit
    then some (.uuid s) else none
  | _ => none

/-- The ordered caster chain of the source: lambdas over `parse_datetime`,
`parse_time`, `parse_date`, `parse_duration`, `UUID`, in that order.  Each
either returns a typed value or signals not-applicable (a `ValueError`
raised by the underlying parser is swallowed by the loop's
`except ValueError: pass`, so it is `none` here). -/
def CASTERS : List (String → Option Value) :=
  [fun a => parse_datetime a,
   fun a => parse_time a,
   fun a => parse_date a,
   fun a => parse_duration a,
   fun a => parseUUID a]

/-- The caster loop of `eval_value`: take the first caster whose result is
truthy (`if casted_value:`), skip casters that return a falsy value or
raise `ValueError`, and fall through to the original string when the chain
is exhausted. -/
def runCasters : List (String → Option Value) → String → Value
| [], s => .str s
| c :: cs, s =>
  match c s with
  | some v => if truthy v then v else runCasters cs s
  | none => runCasters cs s

/-- Python exceptions surfaced by the two parsers. -/
inductive PyErr
| syntaxError (m : String)
| valueError (m : String)
| attributeError (m : String)
| invalidKwarg (m : String)

/-- The source text a caster is applied to.  The caster loop only runs
after a `SyntaxError`, which `literal_eval` can raise only for string
inputs, so the node branch is unreachable there. -/
def EvalInput.sourceText : EvalInput → String
| .str s => s
| .node _ => ""

/-- Model of `eval_value`: try `ast.literal_eval`; on `SyntaxError` run the
caster chain over the original input; any other failure (`ValueError` for a
malformed literal) propagates to the caller. -/
def eval_value (value : EvalInput) : Except PyErr Value :=
  match literal_eval value with
  | .ok v => .ok v
  | .error (LEErr.valueErr m) => .error (.valueError m)
  | .error (LEErr.syntaxErr _) => .ok (runCasters CASTERS value.sourceText)

/-- Model of the `while` loop of `_get_expr_string`, accumulating the
dot-joined identifier from the outermost attribute inward; a node that is
neither `Name` nor `Attribute` stops the walk. -/
def getExprStringAux : PExpr → String → String
| PExpr.name idn, acc => if acc = "" then idn.val else idn.val ++ "." ++ acc
| PExpr.attribute v a, acc => getExprStringAux v (if acc = "" then a else a ++ "." ++ acc)
| _, acc => acc

/-- Model of `_get_expr_string`: dot-joined identifier string of a `Name`
or `Attribute` chain, the empty string for other shapes. -/
def _get_expr_string (expr : PExpr) : String := getExprStringAux expr ""

/-- Model of `parse_kwarg`: parse the string as a statement; a `SyntaxError`
becomes `InvalidKwarg ... could not be parsed`; a body that is empty or not
an assignment becomes `InvalidKwarg ... is invalid`; otherwise the key is
`_get_expr_string(target)` and the value is `eval_value(assign.value)`.
A `ValueError` from `eval_value` is re-raised when ` raise_if_unparseable`
is set, and otherwise recovered by returning
`{target.id: _get_expr_string(assign.value)}` — where `target.id` raises
`AttributeError` when the target is an `Attribute` chain rather than a bare
`Name`. -/
def parse_kwarg (kwarg : String) (raiseIfUnparseable : Bool) :
    Except PyErr (List (String × Value)) :=
  match pyparse kwarg with
  | .error _ => .error (.invalidKwarg (kwarg ++ " could not be parsed"))
  | .ok body =>
    match body with
    | PStmt.assign target value :: _ =>
      match eval_value (.node value) with
      | .ok v => .ok [(_get_expr_string target, v)]
      | .error (PyErr.valueError m) =>
        if raiseIfUnparseable then .error (.valueError m)
        else
          match target with
          | PExpr.name idn => .ok [(idn.val, .str (_get_expr_string value))]
          | _ => .error (.attributeError ("object has no attribute id"))
      | .error (PyErr.syntaxError _) => .error (.invalidKwarg (kwarg ++ " could not be parsed"))
      | .error e => .error e
    | _ => .error (.invalidKwarg (kwarg ++ " is invalid"))

/-- Evaluates the positional arguments of a call in order with
`eval_value`, propagating the first failure — the list comprehension
`[eval_value(arg) for arg in call.args]`. -/
def evalExprList : List PExpr → Except PyErr (List Value)
| [] => .ok []
| e :: es =>
  match eval_value (.node e) with
  | .error err => .error err
  | .ok v =>
    match evalExprList es with
    | .error err => .error err
    | .ok vs => .ok (v :: vs)

/-- Evaluates the keyword arguments of a call in order with `eval_value` —
the dict comprehension over `call.keywords`. -/
def evalKwList : List (String × PExpr) → Except PyErr (List (String × Value))
| [] => .ok []
| (k, e) :: kes =>
  match eval_value (.node e) with
  | .error err => .error err
  | .ok v =>
    match evalKwList kes with
    | .error err => .error err
    | .ok vs => .ok ((k, v) :: vs)

/-- Model of Python `s.startswith("$")`: the first character is `$`. -/
def startsWithDollar (s : String) : Bool :=
  s.data.head? = some '$'

/-- Re-attaches the `$` prefix to special method names on output. -/
def withDollar (d : Bool) (methodName : String) : String :=
  if d then "$" ++ methodName else methodName

/-- Body-dispatch step of `parse_call_method_name`: when the first
statement's `.value` is a `Call`, read `call.func.id` (an `AttributeError`
when the callee is not a bare `Name`) and evaluate the arguments; otherwise
the whole (prefix-stripped) string is the method name with no arguments. -/
def parseCallBody (dollarFunc : Bool) (stripped : String) (body : List PStmt) :
    Except PyErr (String × List Value × List (String × Value)) :=
  match body with
  | [] => .ok (withDollar dollarFunc stripped, [], [])
  | stmt :: _ =>
    match stmt.value with
    | PExpr.call funcE argsE kwsE =>
      match funcE with
      | PExpr.name idn =>
        match evalExprList argsE with
        | .error e => .error e
        | .ok argVals =>
          match evalKwList kwsE with
          | .error e => .error e
          | .ok kwVals => .ok (withDollar dollarFunc idn.val, argVals, kwVals)
      | _ => .error (.attributeError ("object has no attribute id"))
    | _ => .ok (withDollar dollarFunc stripped, [], [])

/-- Model of `parse_call_method_name`: strip a leading `$`, parse the rest
as a statement (a `SyntaxError` propagates), dispatch on the body, and
re-attach the `$`. -/
def parse_call_method_name (callMethodName : String) :
    Except PyErr (String × List Value × List (String × Value)) :=
  match pyparse (if startsWithDollar callMethodName then callMethodName.drop 1 else callMethodName) with
  | .error m => .error (.syntaxError m)
  | .ok body =>
    parseCallBody (startsWithDollar callMethodName)
      (if startsWithDollar callMethodName then callMethodName.drop 1 else callMethodName) body

/-- Truthiness of an optional caster result: the chain takes a caster's
value exactly when it returned one and that value is truthy. -/
def firstMatch (o : Option Value) : Bool :=
  match o with
  | some v => truthy v
  | none => false

/-- A caster result that the chain skips: absent (the underlying parser
failed or raised `ValueError`) or falsy. -/
def notApplicable (o : Option Value) : Bool :=
  match o with
  | some v => !truthy v
  | none => true

/-- Modelled from the spec wording of the fallback chain (claim C4): try
datetime, then time, then date, then duration, then unique identifier;
return the first truthy result, and the original string when no coercion
matches. -/
def fallbackChainSpec (s : String) : Value :=
  if firstMatch (parse_datetime s) then (parse_datetime s).getD (Value.str s)
  else if firstMatch (parse_time s) then (parse_time s).getD (Value.str s)
  else if firstMatch (parse_date s) then (parse_date s).getD (Value.str s)
  else if firstMatch (parse_duration s) then (parse_duration s).getD (Value.str s)
  else if firstMatch (parseUUID s) then (parseUUID s).getD (Value.str s)
  else Value.str s

/-- Appending a character to the front of a string never yields the empty
string. -/
theorem dollar_append_ne (x : String) : ("$" ++ x) ≠ "" := by
  cases x with
  | mk l =>
    intro h
    exact List.cons_ne_nil _ _ (congrArg String.data h)

/-- A `ValueError` from evaluating a node propagates through `eval_value`
untouched: the fallback chain only guards `SyntaxError`. -/
theorem eval_value_node_valueErr (v : PExpr) (m : String) (h : evalNode v = Except.error m) :
    eval_value (EvalInput.node v) = Except.error (PyErr.valueError m) := by
  simp [eval_value, literal_eval, h]

/-- One step of the caster loop, phrased as the first-truthy-wins choice. -/
theorem runCasters_cons (c : String → Option Value) (cs : List (String → Option Value))
    (s : String) :
    runCasters (c :: cs) s =
      if firstMatch (c s) then (c s).getD (Value.str s) else runCasters cs s := by
  cases h : c s with
  | none => simp [runCasters, h, firstMatch]
  | some v => cases hv : truthy v <;> simp [runCasters, h, firstMatch, hv]

/-- The exhausted caster chain falls back to the original string. -/
theorem runCasters_nil (s : String) : runCasters [] s = Value.str s := rfl

/-- The caster loop over the source's `CASTERS` list computes exactly the
ordered datetime, time, date, duration, UUID chain of the specification. -/
theorem runCasters_eq_spec (s : String) : runCasters CASTERS s = fallbackChainSpec s := by
  simp only [CASTERS, runCasters_cons, runCasters_nil, fallbackChainSpec]

/-- A skipped caster result is exactly one the chain does not take. -/
theorem firstMatch_of_notApplicable (o : Option Value) (h : notApplicable o = true) :
    firstMatch o = false := by
  cases o with
  | none => rfl
  | some v =>
    simp [notApplicable] at h
    simp [firstMatch, h]

/-- Claim C3: the Literal Evaluator's failures split in two.  A grammar
failure (`SyntaxError`) is recovered through the fallback coercion chain
and never raises; a semantically malformed literal (`ValueError`) makes
`eval_value` propagate the failure to its caller and never reaches the
fallback chain. -/
theorem claim3_error_split :
    (∀ s m, literal_eval (EvalInput.str s) = Except.error (LEErr.syntaxErr m) →
      eval_value (EvalInput.str s) = Except.ok (runCasters CASTERS s)) ∧
    (∀ v m, literal_eval v = Except.error (LEErr.valueErr m) →
      eval_value v = Except.error (PyErr.valueError m)) := by
  constructor
  · intro s m h
    simp [eval_value, h, EvalInput.sourceText]
  · intro v m h
    simp [eval_value, h]

/-- Claim C3 witness: a syntax failure recovers through the chain; a
malformed literal (`Name` node) propagates `ValueError`. -/
theorem claim3_witness :
    eval_value (EvalInput.str ("foo bar")) = Except.ok (runCasters CASTERS ("foo bar")) ∧
    eval_value (EvalInput.str ("some_undefined_name")) =
      Except.error (PyErr.valueError ("malformed node or string")) :=
  ⟨claim3_error_split.1 ("foo bar") ("invalid syntax") (by rfl),
   claim3_error_split.2 (EvalInput.str ("some_undefined_name"))
     ("malformed node or string") (by rfl)⟩

/-- Claim C4: on a literal-grammar syntax failure, `eval_value` runs the
fallback coercions in exactly the order datetime, time, date, duration,
unique identifier, takes the first non-falsy result and none after it,
skips a coercion that throws or returns a falsy result, and falls back to
the original string. -/
theorem claim4_fallback_chain (s m : String)
    (h : literal_eval (EvalInput.str s) = Except.error (LEErr.syntaxErr m)) :
    eval_value (EvalInput.str s) = Except.ok (fallbackChainSpec s) := by
  simp [eval_value, h, EvalInput.sourceText, runCasters_eq_spec]

/-- Claim C4 witness: `eval_value("2020-01-01T00:00:00")` yields a datetime
value via the fallback chain, not a string. -/
theorem claim4_witness :
    eval_value (EvalInput.str ("2020-01-01T00:00:00")) =
      Except.ok (Value.datetime 2020 1 1 0 0 0) := by
  have h := claim4_fallback_chain ("2020-01-01T00:00:00") ("invalid syntax") (by rfl)
  rw [h]
  rfl

/-- Claim C7: a string that fails the literal grammar and matches no
fallback coercion is returned unchanged as a plain string value — not an
error and not a deferred-name wrapper. -/
theorem claim7_no_match_plain_string (s m : String)
    (h : literal_eval (EvalInput.str s) = Except.error (LEErr.syntaxErr m))
    (h1 : notApplicable (parse_datetime s) = true)
    (h2 : notApplicable (parse_time s) = true)
    (h3 : notApplicable (parse_date s) = true)
    (h4 : notApplicable (parse_duration s) = true)
    (h5 : notApplicable (parseUUID s) = true) :
    eval_value (EvalInput.str s) = Except.ok (Value.str s) := by
  have e1 := firstMatch_of_notApplicable _ h1
  have e2 := firstMatch_of_notApplicable _ h2
  have e3 := firstMatch_of_notApplicable _ h3
  have e4 := firstMatch_of_notApplicable _ h4
  have e5 := firstMatch_of_notApplicable _ h5
  simp [eval_value, h, EvalInput.sourceText, runCasters_eq_spec, fallbackChainSpec,
    e1, e2, e3, e4, e5]

/-- Claim C7 witness: `"hello world"` is not a literal (the space), matches
no coercion, and comes back unchanged as a plain string. -/
theorem claim7_witness :
    eval_value (EvalInput.str ("hello world")) = Except.ok (Value.str ("hello world")) :=
  claim7_no_match_plain_string ("hello world") ("invalid syntax")
    (by rfl) (by rfl) (by rfl) (by rfl) (by rfl) (by rfl)

/-- Claim C8: an input that is not parseable as a statement at all makes
`parse_kwarg` fail with `InvalidKwarg`, for either value of the
` raiseIfUnparseable` flag — never a silent recovery and never another
error kind. -/
theorem claim8_syntax_failure_invalid_kwarg (kwarg : String) (flag : Bool) (m : String)
    (h : pyparse kwarg = Except.error m) :
    parse_kwarg kwarg flag =
      Except.error (PyErr.invalidKwarg (kwarg ++ " could not be parsed")) := by
  simp [parse_kwarg, h]

/-- Claim C8 witness: the truncated assignment `x =` is a syntax failure
and surfaces as `InvalidKwarg` even in strict mode. -/
theorem claim8_witness :
    parse_kwarg ("x =") true =
      Except.error (PyErr.invalidKwarg ("x =" ++ " could not be parsed")) :=
  claim8_syntax_failure_invalid_kwarg ("x =") true ("invalid syntax") (by rfl)

/-- Claim C1 (counterexample): for the attribute-chain target `a.b.c`, the
fallback path of `parse_kwarg` does not return a mapping keyed by the
dot-joined target string `a.b.c`; reading `target.id` off the `Attribute`
node raises `AttributeError`. -/
theorem claim1_counterexample :
    parse_kwarg ("a.b.c=foo") false =
      Except.error (PyErr.attributeError ("object has no attribute id")) := rfl

/-- Claim C1 (amended): when the assignment target is a bare name and the
right-hand side fails as a semantically invalid literal, the key of the
returned one-entry mapping is the dot-joined target identifier string —
the same key `_get_expr_string` produces on the non-fallback path.  (For an
attribute-chain target the fallback path instead raises `AttributeError`.) -/
theorem claim1_fallback_key_bare_name (s : String) (t : NEString) (v : PExpr) (m : String)
    (hp : pyparse s = Except.ok [PStmt.assign (PExpr.name t) v])
    (he : evalNode v = Except.error m) :
    parse_kwarg s false =
      Except.ok [(_get_expr_string (PExpr.name t), Value.str (_get_expr_string v))] := by
  have h2 := eval_value_node_valueErr v m he
  simp [parse_kwarg, hp, h2, _get_expr_string, getExprStringAux]

/-- Claim C1 witness: `x=y` keys the deferred value under `x`, exactly the
dot-joined target string. -/
theorem claim1_witness :
    parse_kwarg ("x=y") false = Except.ok [("x", Value.str ("y"))] := by
  have h := claim1_fallback_key_bare_name ("x=y") ⟨"x", by decide⟩
    (PExpr.name ⟨"y", by decide⟩) ("malformed node or string") (by rfl) (by rfl)
  simpa [_get_expr_string, getExprStringAux] using h

/-- Claim C2 (counterexample): for `a.b=c` the right-hand side fails as a
semantically invalid literal and the flag is false, yet parsing does not
succeed — `target.id` raises `AttributeError` on the attribute-chain
target. -/
theorem claim2_counterexample :
    parse_kwarg ("a.b=c") false =
      Except.error (PyErr.attributeError ("object has no attribute id")) := rfl

/-- Claim C2 (amended): when the right-hand side fails as a semantically
invalid literal, a true flag propagates the `ValueError` (for any target
shape); with a false flag and a bare-name target, parsing succeeds and the
value is the dot-joined identifier string of the right-hand side itself. -/
theorem claim2_unparseable_value (s : String) (target v : PExpr) (body : List PStmt)
    (m : String)
    (hp : pyparse s = Except.ok (PStmt.assign target v :: body))
    (he : evalNode v = Except.error m) :
    parse_kwarg s true = Except.error (PyErr.valueError m) ∧
    ∀ t : NEString, target = PExpr.name t →
      parse_kwarg s false = Except.ok [(t.val, Value.str (_get_expr_string v))] := by
  have h2 := eval_value_node_valueErr v m he
  constructor
  · simp [parse_kwarg, hp, h2]
  · intro t ht
    subst ht
    simp [parse_kwarg, hp, h2]

/-- Claim C2 witness: `x=some_undefined_name` raises `ValueError` in strict
mode and yields the deferred-name string `some_undefined_name` otherwise. -/
theorem claim2_witness :
    parse_kwarg ("x=some_undefined_name") true =
      Except.error (PyErr.valueError ("malformed node or string")) ∧
    parse_kwarg ("x=some_undefined_name") false =
      Except.ok [("x", Value.str ("some_undefined_name"))] := by
  have h := claim2_unparseable_value ("x=some_undefined_name")
    (PExpr.name ⟨"x", by decide⟩) (PExpr.name ⟨"some_undefined_name", by decide⟩) []
    ("malformed node or string") (by rfl) (by rfl)
  refine ⟨h.1, ?_⟩
  simpa [_get_expr_string, getExprStringAux] using h.2 ⟨"x", by decide⟩ rfl

/-- Shape of a successful `parseCallBody`: the method name is either the
whole (prefix-stripped) input or the callee's nonempty identifier, with the
`$` prefix re-attached in both cases. -/
theorem parseCallBody_ok_name (d : Bool) (str mn : String) (body : List PStmt)
    (args : List Value) (kws : List (String × Value))
    (h : parseCallBody d str body = Except.ok (mn, args, kws)) :
    mn = withDollar d str ∨ ∃ idn : NEString, mn = withDollar d idn.val := by
  cases body with
  | nil =>
    simp [parseCallBody] at h
    exact Or.inl h.1.symm
  | cons stmt rest =>
    cases hv : stmt.value
    case call funcE argsE kwsE =>
      cases funcE
      case name idn =>
        cases he : evalExprList argsE with
        | error e => simp [parseCallBody, hv, he] at h
        | ok argVals =>
          cases hk : evalKwList kwsE with
          | error e => simp [parseCallBody, hv, he, hk] at h
          | ok kwVals =>
            simp [parseCallBody, hv, he, hk] at h
            exact Or.inr ⟨idn, h.1.symm⟩
      all_goals simp [parseCallBody, hv] at h
    all_goals
      simp [parseCallBody, hv] at h
      exact Or.inl h.1.symm

/-- Shape of a successful `parse_call_method_name`, lifted through the
prefix stripping. -/
theorem parse_call_method_name_ok_shape (s mn : String) (args : List Value)
    (kws : List (String × Value))
    (h : parse_call_method_name s = Except.ok (mn, args, kws)) :
    mn = withDollar (startsWithDollar s) (if startsWithDollar s then s.drop 1 else s) ∨
    ∃ idn : NEString, mn = withDollar (startsWithDollar s) idn.val := by
  unfold parse_call_method_name at h
  cases hp : pyparse (if startsWithDollar s then s.drop 1 else s) with
  | error m => rw [hp] at h; cases h
  | ok body =>
    rw [hp] at h
    exact parseCallBody_ok_name _ _ _ _ _ _ h

/-- Claim C5 (counterexample): the empty input is accepted by the Call
Expression Parser (an empty parse body) and produces the empty method
name. -/
theorem claim5_counterexample :
    parse_call_method_name ("") = Except.ok ("", [], []) := rfl

/-- Claim C5 (amended): for every nonempty input accepted by the Call
Expression Parser, the returned method name is a nonempty string.  (The
empty input is accepted and returns an empty method name.) -/
theorem claim5_method_name_nonempty (s mn : String) (args : List Value)
    (kws : List (String × Value)) (hs : s ≠ "")
    (h : parse_call_method_name s = Except.ok (mn, args, kws)) : mn ≠ "" := by
  have hshape := parse_call_method_name_ok_shape s mn args kws h
  cases hd : startsWithDollar s with
  | true =>
    rw [hd] at hshape
    rcases hshape with h1 | ⟨idn, h1⟩ <;> subst h1 <;> simp [withDollar] <;>
      exact dollar_append_ne _
  | false =>
    rw [hd] at hshape
    rcases hshape with h1 | ⟨idn, h1⟩ <;> subst h1 <;> simp [withDollar]
    · exact hs
    · exact idn.property

/-- Claim C5 witness: the bare-name input `no_parens` is accepted and its
method name is nonempty. -/
theorem claim5_witness :
    parse_call_method_name ("no_parens") = Except.ok ("no_parens", [], []) ∧
    ("no_parens" : String) ≠ "" :=
  ⟨by rfl, claim5_method_name_nonempty ("no_parens") ("no_parens") [] [] (by decide) (by rfl)⟩

/-- Claim C6: for every accepted input beginning with the reserved `$`
prefix, the returned method name carries the `$` prefix back on output. -/
theorem claim6_dollar_prefix (s mn : String) (args : List Value)
    (kws : List (String × Value)) (hs : startsWithDollar s = true)
    (h : parse_call_method_name s = Except.ok (mn, args, kws)) :
    ∃ rest, mn = "$" ++ rest := by
  rcases parse_call_method_name_ok_shape s mn args kws h with h1 | ⟨idn, h1⟩ <;>
    rw [hs] at h1 <;> simp only [withDollar, if_true] at h1
  · exact ⟨_, h1⟩
  · exact ⟨_, h1⟩

/-- Claim C6 witness: `$refresh()` parses to method name `$refresh` with
empty positional and keyword arguments, and that name starts with `$`. -/
theorem claim6_witness :
    parse_call_method_name ("$refresh()") = Except.ok ("$refresh", [], []) ∧
    ∃ rest, ("$refresh" : String) = "$" ++ rest :=
  ⟨by rfl, claim6_dollar_prefix ("$refresh()") ("$refresh") [] [] (by rfl) (by rfl)⟩

/-- Claim C9: `obj.method()` is syntactically valid and its top-level
expression is a call, but the callee is an `Attribute` rather than a bare
`Name`, so `call.func.id` raises an unhandled `AttributeError` instead of
one of the documented parse errors. -/
theorem claim9_attribute_callee_error :
    pyparse ("obj.method()") =
      Except.ok [PStmt.exprStmt (PExpr.call
        (PExpr.attribute (PExpr.name ⟨"obj", by decide⟩) ("method")) [] [])] ∧
    parse_call_method_name ("obj.method()") =
      Except.error (PyErr.attributeError ("object has no attribute id")) :=
  ⟨rfl, rfl⟩

/-- Pointwise reading of a successful positional-argument evaluation: the
value at each index is `eval_value` of the argument node at that index. -/
theorem evalExprList_get (es : List PExpr) (vs : List Value)
    (h : evalExprList es = Except.ok vs) :
    ∀ i (h1 : i < es.length) (h2 : i < vs.length),
      eval_value (EvalInput.node (es.get ⟨i, h1⟩)) = Except.ok (vs.get ⟨i, h2⟩) := by
  induction es generalizing vs with
  | nil =>
    intro i h1 h2
    exact absurd h1 (by simp)
  | cons e tl ih =>
    cases he : eval_value (EvalInput.node e) with
    | error err => simp [evalExprList, he] at h
    | ok v =>
      cases ht : evalExprList tl with
      | error err => simp [evalExprList, he, ht] at h
      | ok tvs =>
        simp [evalExprList, he, ht] at h
        subst h
        intro i h1 h2
        cases i with
        | zero => simpa using he
        | succ n => exact ih tvs ht n (by simpa using h1) (by simpa using h2)

/-- Pointwise reading of a successful keyword-argument evaluation. -/
theorem evalKwList_get (kes : List (String × PExpr)) (vs : List (String × Value))
    (h : evalKwList kes = Except.ok vs) :
    ∀ i (h1 : i < kes.length) (h2 : i < vs.length),
      eval_value (EvalInput.node (kes.get ⟨i, h1⟩).2) = Except.ok ((vs.get ⟨i, h2⟩).2) := by
  induction kes generalizing vs with
  | nil =>
    intro i h1 h2
    exact absurd h1 (by simp)
  | cons ke tl ih =>
    cases he : eval_value (EvalInput.node ke.2) with
    | error err => simp [evalKwList, he] at h
    | ok v =>
      cases ht : evalKwList tl with
      | error err => simp [evalKwList, he, ht] at h
      | ok tvs =>
        simp [evalKwList, he, ht] at h
        subst h
        intro i h1 h2
        cases i with
        | zero => simpa using he
        | succ n => exact ih tvs ht n (by simpa using h1) (by simpa using h2)

/-- Claim C10: in an accepted call expression, a positional or keyword
argument that is a quoted string literal comes back as the plain string
itself — `eval_value` is applied to the already-parsed `Constant` node,
which succeeds without a syntax failure, so the fallback coercion chain is
never applied to call arguments. -/
theorem claim10_string_literal_args (s mn : String) (stmt : PStmt) (body : List PStmt)
    (funcId : NEString) (argsE : List PExpr) (kwsE : List (String × PExpr))
    (vals : List Value) (kvals : List (String × Value))
    (hp : pyparse (if startsWithDollar s then s.drop 1 else s) = Except.ok (stmt :: body))
    (hv : stmt.value = PExpr.call (PExpr.name funcId) argsE kwsE)
    (h : parse_call_method_name s = Except.ok (mn, vals, kvals)) :
    (∀ i (h1 : i < argsE.length) (h2 : i < vals.length) (t : String),
      argsE.get ⟨i, h1⟩ = PExpr.constant (Const.strC t) → vals.get ⟨i, h2⟩ = Value.str t) ∧
    (∀ i (h1 : i < kwsE.length) (h2 : i < kvals.length) (t : String),
      (kwsE.get ⟨i, h1⟩).2 = PExpr.constant (Const.strC t) →
        (kvals.get ⟨i, h2⟩).2 = Value.str t) := by
  unfold parse_call_method_name at h
  rw [hp] at h
  cases he : evalExprList argsE with
  | error e => simp [parseCallBody, hv, he] at h
  | ok argVals =>
    cases hk : evalKwList kwsE with
    | error e => simp [parseCallBody, hv, he, hk] at h
    | ok kwVals =>
      simp [parseCallBody, hv, he, hk] at h
      constructor
      · intro i h1 h2 t ha
        have hval := evalExprList_get argsE vals (h.2.1 ▸ he) i h1 h2
        rw [ha] at hval
        have : (Except.ok (Value.str t) : Except PyErr Value) = Except.ok (vals.get ⟨i, h2⟩) := hval
        exact (Except.ok.inj this).symm
      · intro i h1 h2 t ha
        have hval := evalKwList_get kwsE kvals (h.2.2 ▸ hk) i h1 h2
        rw [ha] at hval
        have : (Except.ok (Value.str t) : Except PyErr Value) = Except.ok ((kvals.get ⟨i, h2⟩).2) := hval
        exact (Except.ok.inj this).symm

/-- Claim C10 witness: `m("2020-01-01T00:00:00")` keeps its quoted string
argument as the plain string — the fallback chain is not applied even
though the same bare text would coerce to a datetime. -/
theorem claim10_witness :
    parse_call_method_name ("m(\"2020-01-01T00:00:00\")") =
      Except.ok ("m", [Value.str ("2020-01-01T00:00:00")], []) ∧
    ([Value.str ("2020-01-01T00:00:00")].get ⟨0, by decide⟩) =
      Value.str ("2020-01-01T00:00:00") := by
  refine ⟨by rfl, ?_⟩
  have h := (claim10_string_literal_args ("m(\"2020-01-01T00:00:00\")") ("m")
    (PStmt.exprStmt (PExpr.call (PExpr.name ⟨"m", by decide⟩)
      [PExpr.constant (Const.strC ("2020-01-01T00:00:00"))] [])) []
    ⟨"m", by decide⟩ [PExpr.constant (Const.strC ("2020-01-01T00:00:00"))] []
    [Value.str ("2020-01-01T00:00:00")] [] (by rfl) (by rfl) (by rfl)).1
  exact h 0 (by decide) (by decide) ("2020-01-01T00:00:00") (by rfl)

end Unicorn
